import Mathlib

set_option maxRecDepth 8000

/-!
Verification of the CSV data generator (src/main.rs).

The program is a single function generate_large_csv plus main. We embed it
shallowly: machine integers (u64, u8) become Nat with explicit reduction
modulo 2 ^ 64 where u64 arithmetic can wrap; the thread-local random
generator becomes an explicit entropy stream (a function Nat → Nat) with a
position counter; fallible I/O operations (file creation, record writes,
flush, metadata queries) are decided by an error oracle Env indexed by the
operation count; the unbounded while-loop becomes a fueled recursion that
returns none when fuel runs out. Strings and byte slices are lists of Nat
(byte values).
-/

/-! Random source: rand::thread_rng() modelled as a deterministic stream of
draws. Each primitive draw consumes one stream position. -/

structure Rng where
  stream : Nat → Nat
  pos : Nat

/-- One raw draw from the generator. -/
def rngNext (r : Rng) : Nat × Rng :=
  (r.stream r.pos, ⟨r.stream, r.pos + 1⟩)

/-- Model of rng.gen::<[u8; 32]>(): 32 random bytes. -/
def rngBytes32 (r : Rng) : List Nat × Rng :=
  ((List.range 32).map (fun i => r.stream (r.pos + i) % 256),
   ⟨r.stream, r.pos + 32⟩)

/-- Model of rng.gen_range(18..=60): an integer in [18, 60]. -/
def rngRange18to60 (r : Rng) : Nat × Rng :=
  let p := rngNext r
  (18 + p.1 % 43, p.2)

/-- Model of rng.gen_range(0..n) used by SliceRandom::choose. -/
def rngIndex (n : Nat) (r : Rng) : Nat × Rng :=
  let p := rngNext r
  (p.1 % n, p.2)

/-! SHA-256 (FIPS 180-4), as computed by the sha2 crate on the 32 random
bytes. 32-bit words are Nat values kept below 2 ^ 32 by explicit reduction. -/

def w32 (x : Nat) : Nat := x % 4294967296

def rotr32 (n x : Nat) : Nat := w32 ((x >>> n) ||| (x <<< (32 - n)))

def shaCh (e f g : Nat) : Nat := (e &&& f) ^^^ ((e ^^^ 4294967295) &&& g)

def shaMaj (a b c : Nat) : Nat := (a &&& b) ^^^ (a &&& c) ^^^ (b &&& c)

def bigSigma0 (x : Nat) : Nat := rotr32 2 x ^^^ rotr32 13 x ^^^ rotr32 22 x

def bigSigma1 (x : Nat) : Nat := rotr32 6 x ^^^ rotr32 11 x ^^^ rotr32 25 x

def smallSigma0 (x : Nat) : Nat := rotr32 7 x ^^^ rotr32 18 x ^^^ (x >>> 3)

def smallSigma1 (x : Nat) : Nat := rotr32 17 x ^^^ rotr32 19 x ^^^ (x >>> 10)

def shaK : List Nat :=
  [1116352408, 1899447441, 3049323471, 3921009573,
   961987163, 1508970993, 2453635748, 2870763221,
   3624381080, 310598401, 607225278, 1426881987,
   1925078388, 2162078206, 2614888103, 3248222580,
   3835390401, 4022224774, 264347078, 604807628,
   770255983, 1249150122, 1555081692, 1996064986,
   2554220882, 2821834349, 2952996808, 3210313671,
   3336571891, 3584528711, 113926993, 338241895,
   666307205, 773529912, 1294757372, 1396182291,
   1695183700, 1986661051, 2177026350, 2456956037,
   2730485921, 2820302411, 3259730800, 3345764771,
   3516065817, 3600352804, 4094571909, 275423344,
   430227734, 506948616, 659060556, 883997877,
   958139571, 1322822218, 1537002063, 1747873779,
   1955562222, 2024104815, 2227730452, 2361852424,
   2428436474, 2756734187, 3204031479, 3329325298]

/-- The eight working variables of the compression function. -/
structure Hash8 where
  a : Nat
  b : Nat
  c : Nat
  d : Nat
  e : Nat
  f : Nat
  g : Nat
  h : Nat

def shaInit : Hash8 :=
  ⟨1779033703, 3144134277, 1013904242, 2773480762,
   1359893119, 2600822924, 528734635, 1541459225⟩

/-- Pad a byte message per FIPS 180-4: append 0x80, zeros, then the bit
length as 8 big-endian bytes, reaching a multiple of 64 bytes. -/
def padMessage (msg : List Nat) : List Nat :=
  let L := msg.length
  let zeros := (120 - (L + 1) % 64) % 64
  msg ++ [128] ++ List.replicate zeros 0 ++
    (List.range 8).map (fun i => ((8 * L) >>> (56 - 8 * i)) % 256)

/-- The sixteen 32-bit big-endian words of one 64-byte block. -/
def blockWords (block : List Nat) : List Nat :=
  (List.range 16).map (fun i =>
    block.getD (4 * i) 0 * 16777216 + block.getD (4 * i + 1) 0 * 65536 +
    block.getD (4 * i + 2) 0 * 256 + block.getD (4 * i + 3) 0)

/-- Extend the 16 message words to the 64-entry message schedule. -/
def extendSchedule (ws : List Nat) : List Nat :=
  (List.range 48).foldl (fun acc _ =>
    let n := acc.length
    acc ++ [w32 (smallSigma1 (acc.getD (n - 2) 0) + acc.getD (n - 7) 0 +
                 smallSigma0 (acc.getD (n - 15) 0) + acc.getD (n - 16) 0)]) ws

def shaRound (ws : List Nat) (st : Hash8) (i : Nat) : Hash8 :=
  let t1 := w32 (st.h + bigSigma1 st.e + shaCh st.e st.f st.g +
                 shaK.getD i 0 + ws.getD i 0)
  let t2 := w32 (bigSigma0 st.a + shaMaj st.a st.b st.c)
  ⟨w32 (t1 + t2), st.a, st.b, st.c, w32 (st.d + t1), st.e, st.f, st.g⟩

def compressBlock (st : Hash8) (block : List Nat) : Hash8 :=
  let ws := extendSchedule (blockWords block)
  let st2 := (List.range 64).foldl (shaRound ws) st
  ⟨w32 (st.a + st2.a), w32 (st.b + st2.b), w32 (st.c + st2.c),
   w32 (st.d + st2.d), w32 (st.e + st2.e), w32 (st.f + st2.f),
   w32 (st.g + st2.g), w32 (st.h + st2.h)⟩

/-- Big-endian bytes of a 32-bit word. -/
def wordBytes (w : Nat) : List Nat :=
  [(w >>> 24) % 256, (w >>> 16) % 256, (w >>> 8) % 256, w % 256]

/-- SHA-256 digest (32 bytes) of a byte message. -/
def sha256 (msg : List Nat) : List Nat :=
  let padded := padMessage msg
  let nBlocks := padded.length / 64
  let H := (List.range nBlocks).foldl
    (fun acc i => compressBlock acc ((padded.drop (64 * i)).take 64)) shaInit
  [H.a, H.b, H.c, H.d, H.e, H.f, H.g, H.h].flatMap wordBytes

/-! Lowercase hex encoding, as hex::encode_to_slice writes into the
64-byte id buffer. -/

def hexTable : List Nat := [48, 49, 50, 51, 52, 53, 54, 55, 56, 57,
                            97, 98, 99, 100, 101, 102]

def hexDigitByte (n : Nat) : Nat := hexTable.getD n 0

def hexEncodeBytes (bs : List Nat) : List Nat :=
  bs.flatMap (fun b => [hexDigitByte (b / 16), hexDigitByte (b % 16)])

/-- Model of hex::encode_to_slice into a buffer of length outLen: it fails
unless the output buffer is exactly twice the input length. -/
def hexEncodeToSlice (input : List Nat) (outLen : Nat) :
    Except String (List Nat) :=
  if outLen = 2 * input.length then .ok (hexEncodeBytes input)
  else .error "Invalid string output length"

/-- Byte is an ASCII lowercase hex digit, the character class [0-9a-f]. -/
def isHexLowerByte (b : Nat) : Bool :=
  (decide (48 ≤ b) && decide (b ≤ 57)) || (decide (97 ≤ b) && decide (b ≤ 102))

/-! Row generation: the body of the batch loop before the write call. -/

/-- The two ASCII digit bytes of the age: (age / 10) + b'0' then
(age % 10) + b'0'. -/
def ageBytes (a : Nat) : List Nat := [a / 10 + 48, a % 10 + 48]

/-- Decode the two-digit ASCII rendering back to its numeric value. -/
def decodeAge (l : List Nat) : Nat :=
  match l with
  | [x, y] => (x - 48) * 10 + (y - 48)
  | _ => 0

/-- Model of names.choose(&mut rng).unwrap_or(&""): a uniformly random
element, or the empty string when the slice is empty (no draw happens). -/
def chooseName (names : List (List Nat)) (r : Rng) : List Nat × Rng :=
  if names.isEmpty then ([], r)
  else
    let p := rngIndex names.length r
    (names.getD p.1 [], p.2)

/-- One row of the batch loop: 32 random bytes, their SHA-256 digest
hex-encoded into the 64-byte id buffer, a random name, a random age.
The hex encoding step is fallible in the source (mapped into the error
type with the question-mark operator). -/
def genRow (names : List (List Nat)) (r : Rng) :
    Except String (List (List Nat) × Rng) :=
  let p1 := rngBytes32 r
  let hash := sha256 p1.1
  match hexEncodeToSlice hash 64 with
  | .error e => .error e
  | .ok idHex =>
    let p2 := chooseName names p1.2
    let p3 := rngRange18to60 p2.2
    .ok ([idHex, p2.1, ageBytes p3.1], p3.2)

/-! CSV serialization, per the csv crate defaults used by
csv::Writer::from_writer: comma delimiter, newline terminator, and a field
is quoted (with internal quotes doubled) exactly when it contains the
delimiter, a quote, or a line break. -/

def fieldNeedsQuoting (f : List Nat) : Bool :=
  f.any (fun b => b == 44 || b == 34 || b == 10 || b == 13)

def quoteField (f : List Nat) : List Nat :=
  [34] ++ f.flatMap (fun b => if b == 34 then [34, 34] else [b]) ++ [34]

def serField (f : List Nat) : List Nat :=
  if fieldNeedsQuoting f then quoteField f else f

/-- The bytes a record contributes to the writer's buffer. -/
def serRecord (fields : List (List Nat)) : List Nat :=
  List.intercalate [44] (fields.map serField) ++ [10]

/-- ASCII bytes of a string (the name table entries are ASCII). -/
def strBytes (s : String) : List Nat := s.data.map Char.toNat

/-- The header record written before the loop: ["id", "name", "age"]. -/
def headerRecord : List (List Nat) := [strBytes "id", strBytes "name", strBytes "age"]

/-- The first_names list hardcoded in main. -/
def mainNames : List (List Nat) :=
  ["Liam", "Noah", "Jack", "Levi", "Owen", "John", "Leo", "Luke", "Ezra",
   "Luca", "Alex", "Alan", "Ben", "Kyle", "Kurt", "Lou", "Matt", "Ryan",
   "Mia", "Elias", "Mila", "Nova", "Axel", "Leon", "Amara", "Finn", "Molly",
   "Brian", "Dante", "Rhys", "Thea", "Otis", "Rohan", "Anne", "Britt",
   "Brooks", "Cash", "Dane", "Eve", "Gem", "Huck", "Ivy", "Lael", "Mack",
   "Maeve", "Nell", "Onyx", "Pace", "Quinn", "Reed", "Scout", "Taft", "Ula",
   "Van", "Wade", "West"].map strBytes

/-! The generation loop as a state machine. Each fallible operation
(File::create, write_record, flush, metadata) is numbered in execution
order; the oracle Env says whether the k-th operation fails and with what
message. diskLen is what path.metadata()?.len() reports (bytes flushed so
far), bufLen the bytes sitting in the csv writer and BufWriter buffers,
lastBatch the bytes the batch loop itself added before the latest flush. -/

structure GenState where
  opIdx : Nat
  diskLen : Nat
  bufLen : Nat
  rowCount : Nat
  lastBatch : Nat
  written : List (List (List Nat))
  rng : Rng

abbrev Env := Nat → Option String

/-- The oracle under which every I/O operation succeeds. -/
def allOk : Env := fun _ => none

/-- Run one fallible operation: consult the oracle at the current index.
On failure the error carries the state at the failure point. -/
def doOp (env : Env) (st : GenState) : Except (GenState × String) GenState :=
  match env st.opIdx with
  | some e => .error (st, e)
  | none => .ok { st with opIdx := st.opIdx + 1 }

/-- One iteration of the inner for-loop: generate a row, then
writer.write_record(...)? appends its serialized bytes to the buffer. -/
def writeRow (env : Env) (names : List (List Nat)) (st : GenState) :
    Except (GenState × String) GenState :=
  match genRow names st.rng with
  | .error e => .error (st, e)
  | .ok (row, r2) =>
    match doOp env { st with rng := r2 } with
    | .error p => .error p
    | .ok st1 =>
      .ok { st1 with bufLen := st1.bufLen + (serRecord row).length,
                     written := st1.written ++ [row],
                     rowCount := st1.rowCount + 1 }

/-- The inner for-loop over a batch of n rows (BATCH_SIZE = 10000). -/
def writeRows (env : Env) (names : List (List Nat)) :
    Nat → GenState → Except (GenState × String) GenState
  | 0, st => .ok st
  | n + 1, st =>
    match writeRow env names st with
    | .error p => .error p
    | .ok st1 => writeRows env names n st1

/-- The target byte count: size_gb * 1024 * 1024 * 1024 in u64 arithmetic,
which wraps modulo 2 ^ 64 in release builds. -/
def targetSizeBytes (sizeGb : Nat) : Nat :=
  (sizeGb * 1024 * 1024 * 1024) % (2 ^ 64)

/-- The effect of writer.flush(): all buffered bytes reach the disk, so
the next metadata query sees them; lastBatch records how many of those
bytes the batch itself contributed (preBuf is the buffer level before the
batch, nonzero only for the not-yet-flushed header). -/
def flushState (preBuf : Nat) (st : GenState) : GenState :=
  { st with diskLen := st.diskLen + st.bufLen,
            bufLen := 0,
            lastBatch := st.bufLen - preBuf }

/-- The while-loop, fueled. Each iteration: query metadata for the size
check; if still below target, write one batch of 10000 rows, flush
(moving the buffer to disk), and, when row_count % 100000 == 0, query
metadata again for the progress line. -/
def loopGo (env : Env) (names : List (List Nat)) (target : Nat) :
    Nat → GenState → Option (Except (GenState × String) GenState)
  | 0, _ => none
  | fuel + 1, st =>
    match doOp env st with
    | .error p => some (.error p)
    | .ok st1 =>
      if st1.diskLen < target then
        match writeRows env names 10000 st1 with
        | .error p => some (.error p)
        | .ok st2 =>
          match doOp env st2 with
          | .error p => some (.error p)
          | .ok st3 =>
            if (flushState st1.bufLen st3).rowCount % 100000 == 0 then
              match doOp env (flushState st1.bufLen st3) with
              | .error p => some (.error p)
              | .ok st5 => loopGo env names target fuel st5
            else loopGo env names target fuel (flushState st1.bufLen st3)
      else some (.ok st1)

/-- The state before any operation has run: empty file, fresh generator. -/
def initState (s : Nat → Nat) : GenState :=
  { opIdx := 0, diskLen := 0, bufLen := 0, rowCount := 0, lastBatch := 0,
    written := [], rng := ⟨s, 0⟩ }

/-- The effect of writing the header record into the writer's buffer. -/
def headerState (st : GenState) : GenState :=
  { st with bufLen := st.bufLen + (serRecord headerRecord).length,
            written := st.written ++ [headerRecord] }

/-- generate_large_csv: create the file, write the header record, run the
size-checked batch loop, then query metadata once more for the final
report. Success returns the final state; failure carries the state at the
first failing operation. -/
def generate (env : Env) (fuel : Nat) (sizeGb : Nat)
    (names : List (List Nat)) (s : Nat → Nat) :
    Option (Except (GenState × String) GenState) :=
  let target := targetSizeBytes sizeGb
  match doOp env (initState s) with
  | .error p => some (.error p)
  | .ok st1 =>
    match doOp env st1 with
    | .error p => some (.error p)
    | .ok st2 =>
      match loopGo env names target fuel (headerState st2) with
      | none => none
      | some (.error p) => some (.error p)
      | some (.ok st4) =>
        match doOp env st4 with
        | .error p => some (.error p)
        | .ok st5 => some (.ok st5)

/-- Observable outcome of main: stderr lines, the process exit code, and
the file state left behind. -/
structure MainOut where
  stderrLines : List String
  exitCode : Nat
  finalState : GenState

/-- main: call generate_large_csv with the hardcoded path, 10 GB and the
name list; on Err print one eprintln line; either way return normally
(exit code 0). The file is never removed or truncated afterwards. -/
def mainModel (env : Env) (fuel : Nat) (s : Nat → Nat) : Option MainOut :=
  match generate env fuel 10 mainNames s with
  | none => none
  | some (.ok st) => some ⟨[], 0, st⟩
  | some (.error (st, e)) => some ⟨["An error occurred: " ++ e], 0, st⟩

/-! Observation helpers over run results. -/

/-- Property holds of the final state of every successful terminating run. -/
def OnOk (r : Option (Except (GenState × String) GenState))
    (P : GenState → Prop) : Prop :=
  match r with
  | some (.ok st) => P st
  | _ => True

/-- Property holds of the state and message of every aborted run. -/
def OnErr (r : Option (Except (GenState × String) GenState))
    (P : GenState → String → Prop) : Prop :=
  match r with
  | some (.error (st, e)) => P st e
  | _ => True

/-- Row count of a successful run, for concrete evaluation. -/
def resRowCount (r : Option (Except (GenState × String) GenState)) :
    Option Nat :=
  match r with
  | some (.ok st) => some st.rowCount
  | _ => none

/-- Property holds of the row produced by one row generation; the error
case is excluded (row generation must not fail). -/
def RowOk (r : Except String (List (List Nat) × Rng))
    (P : List (List Nat) → Prop) : Prop :=
  match r with
  | .ok (row, _) => P row
  | .error _ => False

/-- Every record in the list is a data row: exactly 3 fields, the first
being the 64-byte id. -/
def goodRows (l : List (List (List Nat))) : Bool :=
  l.all (fun row => row.length == 3 && ((row.getD 0 []).length == 64))

/-- No operation with index below k fails under the oracle. -/
def noErrBefore (env : Env) (k : Nat) : Prop :=
  ((List.range k).all fun j => (env j).isNone) = true

/-- The aborting error is the first failure the oracle holds along the
execution: the oracle fails at the state's operation index with exactly
the reported message, and every earlier operation succeeded. -/
def FirstErr (env : Env) (p : GenState × String) : Prop :=
  env p.1.opIdx = some p.2 ∧ noErrBefore env p.1.opIdx

/-- The row genRow produces (it never fails; see genRow_eq below). -/
def rowOf (names : List (List Nat)) (r : Rng) : List (List Nat) :=
  [hexEncodeBytes (sha256 (rngBytes32 r).1),
   (chooseName names (rngBytes32 r).2).1,
   ageBytes (rngRange18to60 (chooseName names (rngBytes32 r).2).2).1]

/-- The generator state genRow leaves behind. -/
def rowRng (names : List (List Nat)) (r : Rng) : Rng :=
  (rngRange18to60 (chooseName names (rngBytes32 r).2).2).2

/-! Basic lemmas about the digest and hex encoding. -/

theorem sha256_length (msg : List Nat) : (sha256 msg).length = 32 := by
  simp [sha256, wordBytes]

theorem sha256_bytes_lt (msg : List Nat) : ∀ b ∈ sha256 msg, b < 256 := by
  intro b hb
  simp only [sha256, List.mem_flatMap] at hb
  obtain ⟨w, _, hbw⟩ := hb
  simp only [wordBytes, List.mem_cons, List.not_mem_nil, or_false] at hbw
  rcases hbw with h | h | h | h <;> subst h <;>
    exact Nat.mod_lt _ (by norm_num)

theorem hexEncodeBytes_length (bs : List Nat) :
    (hexEncodeBytes bs).length = 2 * bs.length := by
  induction bs with
  | nil => rfl
  | cons b t ih => simp [hexEncodeBytes] at ih ⊢; omega

theorem hexDigitByte_hex {n : Nat} (h : n < 16) :
    isHexLowerByte (hexDigitByte n) = true := by
  interval_cases n <;> decide

theorem hexEncodeBytes_hex {bs : List Nat} (h : ∀ b ∈ bs, b < 256) :
    (hexEncodeBytes bs).all isHexLowerByte = true := by
  induction bs with
  | nil => rfl
  | cons b t ih =>
    have hb : b < 256 := h b (by simp)
    have h1 : b / 16 < 16 := by omega
    have h2 : b % 16 < 16 := by omega
    rw [show hexEncodeBytes (b :: t) =
          [hexDigitByte (b / 16), hexDigitByte (b % 16)] ++ hexEncodeBytes t
        from rfl, List.all_append]
    rw [ih (fun x hx => h x (by simp [hx]))]
    simp [List.all_cons, hexDigitByte_hex h1, hexDigitByte_hex h2]

theorem hexEncodeToSlice_sha256 (msg : List Nat) :
    hexEncodeToSlice (sha256 msg) 64 = .ok (hexEncodeBytes (sha256 msg)) := by
  unfold hexEncodeToSlice
  rw [sha256_length]
  norm_num

theorem genRow_eq (names : List (List Nat)) (r : Rng) :
    genRow names r = .ok (rowOf names r, rowRng names r) := by
  simp only [genRow, hexEncodeToSlice_sha256, rowOf, rowRng]

theorem rowOf_good (names : List (List Nat)) (r : Rng) :
    goodRows [rowOf names r] = true := by
  simp [goodRows, rowOf, hexEncodeBytes_length, sha256_length]

/-! Lemmas about single operations and the batch loop. -/

theorem doOp_ok {env : Env} {st st' : GenState}
    (h : doOp env st = .ok st') :
    st' = { st with opIdx := st.opIdx + 1 } ∧ env st.opIdx = none := by
  unfold doOp at h
  cases he : env st.opIdx <;> rw [he] at h
  · injection h with h1
    exact ⟨h1.symm, rfl⟩
  · exact absurd h (by simp)

theorem doOp_error {env : Env} {st : GenState} {p}
    (h : doOp env st = .error p) :
    p.1 = st ∧ env st.opIdx = some p.2 := by
  unfold doOp at h
  cases he : env st.opIdx <;> rw [he] at h
  · exact absurd h (by simp)
  · injection h with h1
    subst h1
    exact ⟨rfl, rfl⟩

theorem noErrBefore_zero (env : Env) : noErrBefore env 0 := by
  simp [noErrBefore]

theorem noErrBefore_succ {env : Env} {k : Nat}
    (hb : noErrBefore env k) (hk : env k = none) :
    noErrBefore env (k + 1) := by
  unfold noErrBefore at *
  rw [List.range_succ, List.all_append]
  simp [hb, hk]

theorem doOp_ok_noErr {env : Env} {st st' : GenState}
    (hb : noErrBefore env st.opIdx) (h : doOp env st = .ok st') :
    noErrBefore env st'.opIdx := by
  obtain ⟨he, hn⟩ := doOp_ok h
  subst he
  exact noErrBefore_succ hb hn

theorem doOp_error_first {env : Env} {st : GenState} {p}
    (hb : noErrBefore env st.opIdx) (h : doOp env st = .error p) :
    FirstErr env p := by
  obtain ⟨h1, h2⟩ := doOp_error h
  exact ⟨by rw [h1]; exact h2, by rw [h1]; exact hb⟩

theorem writeRow_eq (env : Env) (names : List (List Nat)) (st : GenState) :
    writeRow env names st =
      match doOp env { st with rng := rowRng names st.rng } with
      | .error p => .error p
      | .ok st1 =>
        .ok { st1 with
              bufLen := st1.bufLen + (serRecord (rowOf names st.rng)).length,
              written := st1.written ++ [rowOf names st.rng],
              rowCount := st1.rowCount + 1 } := by
  unfold writeRow
  rw [genRow_eq]

theorem writeRow_ok {env : Env} {names : List (List Nat)} {st st' : GenState}
    (h : writeRow env names st = .ok st') :
    st'.diskLen = st.diskLen ∧ st'.lastBatch = st.lastBatch ∧
    st'.rowCount = st.rowCount + 1 ∧
    st'.bufLen = st.bufLen + (serRecord (rowOf names st.rng)).length ∧
    st'.written = st.written ++ [rowOf names st.rng] := by
  rw [writeRow_eq] at h
  cases hd : doOp env { st with rng := rowRng names st.rng } <;> rw [hd] at h
  · exact absurd h (by simp)
  · injection h with h1
    obtain ⟨he, _⟩ := doOp_ok hd
    subst h1
    subst he
    exact ⟨rfl, rfl, rfl, rfl, rfl⟩

theorem writeRow_ok_noErr {env : Env} {names : List (List Nat)}
    {st st' : GenState} (hb : noErrBefore env st.opIdx)
    (h : writeRow env names st = .ok st') :
    noErrBefore env st'.opIdx := by
  rw [writeRow_eq] at h
  cases hd : doOp env { st with rng := rowRng names st.rng } <;> rw [hd] at h
  · exact absurd h (by simp)
  · injection h with h1
    subst h1
    have hres := @doOp_ok_noErr env { st with rng := rowRng names st.rng } _ hb hd
    exact hres

theorem writeRow_error_first {env : Env} {names : List (List Nat)}
    {st : GenState} {p} (hb : noErrBefore env st.opIdx)
    (h : writeRow env names st = .error p) :
    FirstErr env p := by
  rw [writeRow_eq] at h
  cases hd : doOp env { st with rng := rowRng names st.rng } <;> rw [hd] at h
  · injection h with h1
    subst h1
    exact @doOp_error_first env { st with rng := rowRng names st.rng } _ hb hd
  · exact absurd h (by simp)

theorem writeRows_ok {env : Env} {names : List (List Nat)} :
    ∀ (n : Nat) {st st' : GenState},
      writeRows env names n st = .ok st' →
      st'.diskLen = st.diskLen ∧ st'.lastBatch = st.lastBatch ∧
      st'.rowCount = st.rowCount + n ∧
      (∃ b, st'.bufLen = st.bufLen + b) ∧
      (∃ rows, goodRows rows = true ∧ st'.written = st.written ++ rows) := by
  intro n
  induction n with
  | zero =>
    intro st st' h
    unfold writeRows at h
    injection h with h1
    subst h1
    exact ⟨rfl, rfl, rfl, ⟨0, rfl⟩, ⟨[], rfl, by simp⟩⟩
  | succ n ih =>
    intro st st' h
    unfold writeRows at h
    cases hw : writeRow env names st <;> rw [hw] at h
    · exact absurd h (by simp)
    case ok st1 =>
      obtain ⟨d1, l1, c1, b1, w1⟩ := writeRow_ok hw
      obtain ⟨d2, l2, c2, ⟨b2v, hb2⟩, ⟨rows2, hg2, hw2⟩⟩ := ih h
      refine ⟨d2.trans d1, l2.trans l1, by omega,
        ⟨(serRecord (rowOf names st.rng)).length + b2v, by omega⟩,
        ⟨[rowOf names st.rng] ++ rows2, ?_, ?_⟩⟩
      · have hone := rowOf_good names st.rng
        simp only [goodRows] at hone hg2 ⊢
        rw [List.all_append, hone, hg2]
        rfl
      · rw [hw2, w1, List.append_assoc]

theorem writeRows_ok_noErr {env : Env} {names : List (List Nat)} :
    ∀ (n : Nat) {st st' : GenState}, noErrBefore env st.opIdx →
      writeRows env names n st = .ok st' → noErrBefore env st'.opIdx := by
  intro n
  induction n with
  | zero =>
    intro st st' hb h
    unfold writeRows at h
    injection h with h1
    subst h1
    exact hb
  | succ n ih =>
    intro st st' hb h
    unfold writeRows at h
    cases hw : writeRow env names st <;> rw [hw] at h
    · exact absurd h (by simp)
    · exact ih (writeRow_ok_noErr hb hw) h

theorem writeRows_error_first {env : Env} {names : List (List Nat)} :
    ∀ (n : Nat) {st : GenState} {p}, noErrBefore env st.opIdx →
      writeRows env names n st = .error p → FirstErr env p := by
  intro n
  induction n with
  | zero =>
    intro st p _ h
    unfold writeRows at h
    exact absurd h (by simp)
  | succ n ih =>
    intro st p hb h
    unfold writeRows at h
    cases hw : writeRow env names st <;> rw [hw] at h
    · injection h with h1
      subst h1
      exact writeRow_error_first hb hw
    · exact ih (writeRow_ok_noErr hb hw) h

theorem loopGo_exit {env : Env} {names : List (List Nat)} {target : Nat} :
    ∀ (fuel : Nat) (st : GenState),
      OnOk (loopGo env names target fuel st) fun st' => target ≤ st'.diskLen := by
  intro fuel
  induction fuel with
  | zero => intro st; exact trivial
  | succ fuel ih =>
    intro st
    unfold loopGo
    cases hd : doOp env st
    · exact trivial
    · rename_i st1
      dsimp only
      by_cases hlt : st1.diskLen < target
      · rw [if_pos hlt]
        cases hw : writeRows env names 10000 st1
        · exact trivial
        · rename_i st2
          dsimp only
          cases hf : doOp env st2
          · exact trivial
          · rename_i st3
            dsimp only
            by_cases hp :
                ((flushState st1.bufLen st3).rowCount % 100000 == 0) = true
            · rw [if_pos hp]
              cases hm : doOp env (flushState st1.bufLen st3)
              · exact trivial
              · rename_i st5
                exact ih st5
            · rw [if_neg hp]
              exact ih (flushState st1.bufLen st3)
      · rw [if_neg hlt]
        exact Nat.le_of_not_lt hlt

theorem doOp_ok_fields {env : Env} {st st' : GenState}
    (h : doOp env st = .ok st') :
    st'.diskLen = st.diskLen ∧ st'.bufLen = st.bufLen ∧
    st'.rowCount = st.rowCount ∧ st'.lastBatch = st.lastBatch ∧
    st'.written = st.written ∧ st'.rng = st.rng := by
  obtain ⟨he, -⟩ := doOp_ok h
  subst he
  exact ⟨rfl, rfl, rfl, rfl, rfl, rfl⟩

theorem OnOk_mono {r : Option (Except (GenState × String) GenState)}
    {P Q : GenState → Prop} (h : OnOk r P) (imp : ∀ st, P st → Q st) :
    OnOk r Q := by
  unfold OnOk at *
  cases r with
  | none => trivial
  | some v =>
    cases v with
    | error p => trivial
    | ok st => exact imp st h

theorem loopGo_rows {env : Env} {names : List (List Nat)} {target : Nat} :
    ∀ (fuel : Nat) (st : GenState),
      OnOk (loopGo env names target fuel st) fun st' =>
        st.rowCount ≤ st'.rowCount ∧
        (st.diskLen < target → st.rowCount + 10000 ≤ st'.rowCount) := by
  intro fuel
  induction fuel with
  | zero => intro st; exact trivial
  | succ fuel ih =>
    intro st
    unfold loopGo
    cases hd : doOp env st
    · exact trivial
    · rename_i st1
      obtain ⟨ed, eb, ec, el, ew, er⟩ := doOp_ok_fields hd
      dsimp only
      by_cases hlt : st1.diskLen < target
      · rw [if_pos hlt]
        cases hw : writeRows env names 10000 st1
        · exact trivial
        · rename_i st2
          obtain ⟨d2, l2, c2, -, -⟩ := writeRows_ok 10000 hw
          dsimp only
          cases hf : doOp env st2
          · exact trivial
          · rename_i st3
            obtain ⟨d3, b3, c3, l3, w3, -⟩ := doOp_ok_fields hf
            dsimp only
            have hc : (flushState st1.bufLen st3).rowCount = st3.rowCount := rfl
            by_cases hp :
                ((flushState st1.bufLen st3).rowCount % 100000 == 0) = true
            · rw [if_pos hp]
              cases hm : doOp env (flushState st1.bufLen st3)
              · exact trivial
              · rename_i st5
                obtain ⟨d5, b5, c5, l5, w5, -⟩ := doOp_ok_fields hm
                refine OnOk_mono (ih st5) fun st' hst' => ?_
                obtain ⟨h1, -⟩ := hst'
                exact ⟨by omega, fun _ => by omega⟩
            · rw [if_neg hp]
              refine OnOk_mono (ih (flushState st1.bufLen st3))
                fun st' hst' => ?_
              obtain ⟨h1, -⟩ := hst'
              exact ⟨by omega, fun _ => by omega⟩
      · rw [if_neg hlt]
        refine ⟨by omega, fun hcl => by omega⟩

theorem loopGo_overshoot {env : Env} {names : List (List Nat)} {target : Nat}
    (ht : 12 < target) :
    ∀ (fuel : Nat) (st : GenState),
      st.bufLen = 0 ∨ (st.bufLen = 12 ∧ st.diskLen = 0) →
      (target ≤ st.diskLen → st.diskLen - target < st.lastBatch) →
      OnOk (loopGo env names target fuel st) fun st' =>
        target ≤ st'.diskLen ∧ st'.diskLen - target < st'.lastBatch := by
  intro fuel
  induction fuel with
  | zero => intro st _ _; exact trivial
  | succ fuel ih =>
    intro st hdisj himp
    unfold loopGo
    cases hd : doOp env st
    · exact trivial
    · rename_i st1
      obtain ⟨ed, eb, ec, el, ew, er⟩ := doOp_ok_fields hd
      dsimp only
      by_cases hlt : st1.diskLen < target
      · rw [if_pos hlt]
        cases hw : writeRows env names 10000 st1
        · exact trivial
        · rename_i st2
          obtain ⟨d2, l2, c2, ⟨bv, hb2⟩, -⟩ := writeRows_ok 10000 hw
          dsimp only
          cases hf : doOp env st2
          · exact trivial
          · rename_i st3
            obtain ⟨d3, b3, c3, l3, w3, -⟩ := doOp_ok_fields hf
            dsimp only
            have hf1 : (flushState st1.bufLen st3).diskLen =
                st3.diskLen + st3.bufLen := rfl
            have hf2 : (flushState st1.bufLen st3).bufLen = 0 := rfl
            have hf3 : (flushState st1.bufLen st3).lastBatch =
                st3.bufLen - st1.bufLen := rfl
            by_cases hp :
                ((flushState st1.bufLen st3).rowCount % 100000 == 0) = true
            · rw [if_pos hp]
              cases hm : doOp env (flushState st1.bufLen st3)
              · exact trivial
              · rename_i st5
                obtain ⟨d5, b5, c5, l5, w5, -⟩ := doOp_ok_fields hm
                apply ih st5
                · left; omega
                · intro hge; omega
            · rw [if_neg hp]
              apply ih (flushState st1.bufLen st3)
              · left; exact hf2
              · intro hge; omega
      · rw [if_neg hlt]
        refine ⟨Nat.le_of_not_lt hlt, ?_⟩
        have h2 := himp (by omega)
        omega

theorem goodRows_append {l r : List (List (List Nat))}
    (hl : goodRows l = true) (hr : goodRows r = true) :
    goodRows (l ++ r) = true := by
  simp only [goodRows] at hl hr ⊢
  rw [List.all_append, hl, hr]
  rfl

theorem loopGo_written {env : Env} {names : List (List Nat)} {target : Nat} :
    ∀ (fuel : Nat) (st : GenState),
      st.written.head? = some headerRecord →
      goodRows st.written.tail = true →
      OnOk (loopGo env names target fuel st) fun st' =>
        st'.written.head? = some headerRecord ∧
        goodRows st'.written.tail = true := by
  intro fuel
  induction fuel with
  | zero => intro st _ _; exact trivial
  | succ fuel ih =>
    intro st hh htl
    unfold loopGo
    cases hd : doOp env st
    · exact trivial
    · rename_i st1
      obtain ⟨-, -, -, -, ew, -⟩ := doOp_ok_fields hd
      dsimp only
      by_cases hlt : st1.diskLen < target
      · rw [if_pos hlt]
        cases hw : writeRows env names 10000 st1
        · exact trivial
        · rename_i st2
          obtain ⟨-, -, -, -, rows, hrows, hw2⟩ := writeRows_ok 10000 hw
          dsimp only
          cases hf : doOp env st2
          · exact trivial
          · rename_i st3
            obtain ⟨-, -, -, -, w3, -⟩ := doOp_ok_fields hf
            dsimp only
            have hwf : (flushState st1.bufLen st3).written = st3.written := rfl
            cases hwl : st.written with
            | nil => rw [hwl] at hh; exact absurd hh (by simp)
            | cons a t =>
              rw [hwl] at hh htl ew
              simp only [List.head?_cons, Option.some.injEq] at hh
              subst hh
              simp only [List.tail_cons] at htl
              have hnew : st3.written = headerRecord :: (t ++ rows) := by
                rw [w3, hw2, ew, List.cons_append]
              have hhead : st3.written.head? = some headerRecord := by
                rw [hnew]; rfl
              have htail : goodRows st3.written.tail = true := by
                rw [hnew]
                simp only [List.tail_cons]
                exact goodRows_append htl hrows
              by_cases hp :
                  ((flushState st1.bufLen st3).rowCount % 100000 == 0) = true
              · rw [if_pos hp]
                cases hm : doOp env (flushState st1.bufLen st3)
                · exact trivial
                · rename_i st5
                  obtain ⟨-, -, -, -, w5, -⟩ := doOp_ok_fields hm
                  apply ih st5
                  · rw [w5, hwf]; exact hhead
                  · rw [w5, hwf]; exact htail
              · rw [if_neg hp]
                apply ih (flushState st1.bufLen st3)
                · rw [hwf]; exact hhead
                · rw [hwf]; exact htail
      · rw [if_neg hlt]
        refine ⟨?_, ?_⟩
        · rw [ew]; exact hh
        · rw [ew]; exact htl

theorem loopGo_error_first {env : Env} {names : List (List Nat)}
    {target : Nat} :
    ∀ (fuel : Nat) {st : GenState} {p}, noErrBefore env st.opIdx →
      loopGo env names target fuel st = some (.error p) → FirstErr env p := by
  intro fuel
  induction fuel with
  | zero =>
    intro st p _ h
    exact absurd h (by simp [loopGo])
  | succ fuel ih =>
    intro st p hb h
    unfold loopGo at h
    cases hd : doOp env st <;> rw [hd] at h
    · dsimp only at h
      injection h with h1
      injection h1 with h2
      subst h2
      exact doOp_error_first hb hd
    · rename_i st1
      dsimp only at h
      have hb1 := doOp_ok_noErr hb hd
      by_cases hlt : st1.diskLen < target
      · rw [if_pos hlt] at h
        cases hw : writeRows env names 10000 st1 <;> rw [hw] at h
        · dsimp only at h
          injection h with h1
          injection h1 with h2
          subst h2
          exact writeRows_error_first 10000 hb1 hw
        · rename_i st2
          dsimp only at h
          have hb2 := writeRows_ok_noErr 10000 hb1 hw
          cases hf : doOp env st2 <;> rw [hf] at h
          · dsimp only at h
            injection h with h1
            injection h1 with h2
            subst h2
            exact doOp_error_first hb2 hf
          · rename_i st3
            dsimp only at h
            have hb3p := doOp_ok_noErr hb2 hf
            have hb3 : noErrBefore env (flushState st1.bufLen st3).opIdx := hb3p
            by_cases hp :
                ((flushState st1.bufLen st3).rowCount % 100000 == 0) = true
            · rw [if_pos hp] at h
              cases hm : doOp env (flushState st1.bufLen st3) <;> rw [hm] at h
              · dsimp only at h
                injection h with h1
                injection h1 with h2
                subst h2
                exact doOp_error_first hb3 hm
              · rename_i st5
                exact ih (doOp_ok_noErr hb3 hm) h
            · rw [if_neg hp] at h
              exact ih hb3 h
      · rw [if_neg hlt] at h
        exact absurd h (by simp)

theorem loopGo_ok_noErr {env : Env} {names : List (List Nat)}
    {target : Nat} :
    ∀ (fuel : Nat) {st st' : GenState}, noErrBefore env st.opIdx →
      loopGo env names target fuel st = some (.ok st') →
      noErrBefore env st'.opIdx := by
  intro fuel
  induction fuel with
  | zero =>
    intro st st' _ h
    exact absurd h (by simp [loopGo])
  | succ fuel ih =>
    intro st st' hb h
    unfold loopGo at h
    cases hd : doOp env st <;> rw [hd] at h
    · exact absurd h (by simp)
    · rename_i st1
      dsimp only at h
      have hb1 := doOp_ok_noErr hb hd
      by_cases hlt : st1.diskLen < target
      · rw [if_pos hlt] at h
        cases hw : writeRows env names 10000 st1 <;> rw [hw] at h
        · exact absurd h (by simp)
        · rename_i st2
          dsimp only at h
          have hb2 := writeRows_ok_noErr 10000 hb1 hw
          cases hf : doOp env st2 <;> rw [hf] at h
          · exact absurd h (by simp)
          · rename_i st3
            dsimp only at h
            have hb3p := doOp_ok_noErr hb2 hf
            have hb3 : noErrBefore env (flushState st1.bufLen st3).opIdx := hb3p
            by_cases hp :
                ((flushState st1.bufLen st3).rowCount % 100000 == 0) = true
            · rw [if_pos hp] at h
              cases hm : doOp env (flushState st1.bufLen st3) <;> rw [hm] at h
              · exact absurd h (by simp)
              · rename_i st5
                exact ih (doOp_ok_noErr hb3 hm) h
            · rw [if_neg hp] at h
              exact ih hb3 h
      · rw [if_neg hlt] at h
        injection h with h1
        injection h1 with h2
        subst h2
        exact hb1

theorem headerRecord_serLen : (serRecord headerRecord).length = 12 := by
  decide

theorem generate_ok_loop {env : Env} {fuel sg : Nat}
    {names : List (List Nat)} {s : Nat → Nat} {stf : GenState}
    (h : generate env fuel sg names s = some (.ok stf)) :
    ∃ st3 st4 : GenState,
      st3.diskLen = 0 ∧ st3.bufLen = 12 ∧
      st3.rowCount = 0 ∧ st3.lastBatch = 0 ∧
      st3.written = [headerRecord] ∧
      loopGo env names (targetSizeBytes sg) fuel st3 = some (.ok st4) ∧
      stf.diskLen = st4.diskLen ∧ stf.rowCount = st4.rowCount ∧
      stf.lastBatch = st4.lastBatch ∧ stf.written = st4.written := by
  unfold generate at h
  cases hd0 : doOp env (initState s) <;> rw [hd0] at h
  · exact absurd h (by simp)
  · rename_i st1
    obtain ⟨e1d, e1b, e1c, e1l, e1w, -⟩ := doOp_ok_fields hd0
    dsimp only at h
    cases hd1 : doOp env st1 <;> rw [hd1] at h
    · exact absurd h (by simp)
    · rename_i st2
      obtain ⟨e2d, e2b, e2c, e2l, e2w, -⟩ := doOp_ok_fields hd1
      dsimp only at h
      cases hl : loopGo env names (targetSizeBytes sg) fuel
          (headerState st2) <;> rw [hl] at h
      · exact absurd h (by simp)
      · rename_i res
        cases res with
        | error p => exact absurd h (by simp)
        | ok st4 =>
          dsimp only at h
          cases hf : doOp env st4 <;> rw [hf] at h
          · exact absurd h (by simp)
          · rename_i st5
            obtain ⟨e5d, e5b, e5c, e5l, e5w, -⟩ := doOp_ok_fields hf
            injection h with h1
            injection h1 with h2
            subst h2
            have q1 : (headerState st2).diskLen = st2.diskLen := rfl
            have q2 : (headerState st2).bufLen =
                st2.bufLen + (serRecord headerRecord).length := rfl
            have q3 : (headerState st2).rowCount = st2.rowCount := rfl
            have q4 : (headerState st2).lastBatch = st2.lastBatch := rfl
            have q5 : (headerState st2).written =
                st2.written ++ [headerRecord] := rfl
            have hi1 : (initState s).diskLen = 0 := rfl
            have hi2 : (initState s).bufLen = 0 := rfl
            have hi3 : (initState s).rowCount = 0 := rfl
            have hi4 : (initState s).lastBatch = 0 := rfl
            have hi5 : (initState s).written = [] := rfl
            refine ⟨_, st4, ?_, ?_, ?_, ?_, ?_, hl, e5d, e5c, e5l, e5w⟩
            · omega
            · rw [q2, headerRecord_serLen]; omega
            · omega
            · omega
            · rw [q5, e2w, e1w, hi5]; rfl

theorem generate_error_first {env : Env} {fuel sg : Nat}
    {names : List (List Nat)} {s : Nat → Nat} {p}
    (h : generate env fuel sg names s = some (.error p)) :
    FirstErr env p := by
  unfold generate at h
  have hb0 : noErrBefore env (initState s).opIdx := noErrBefore_zero env
  cases hd0 : doOp env (initState s) <;> rw [hd0] at h
  · dsimp only at h
    injection h with h1
    injection h1 with h2
    subst h2
    exact doOp_error_first hb0 hd0
  · rename_i st1
    have hb1 := doOp_ok_noErr hb0 hd0
    dsimp only at h
    cases hd1 : doOp env st1 <;> rw [hd1] at h
    · dsimp only at h
      injection h with h1
      injection h1 with h2
      subst h2
      exact doOp_error_first hb1 hd1
    · rename_i st2
      have hb2p := doOp_ok_noErr hb1 hd1
      have hb2 : noErrBefore env (headerState st2).opIdx := hb2p
      dsimp only at h
      cases hl : loopGo env names (targetSizeBytes sg) fuel
          (headerState st2) <;> rw [hl] at h
      · exact absurd h (by simp)
      · rename_i res
        cases res with
        | error q =>
          dsimp only at h
          injection h with h1
          injection h1 with h2
          subst h2
          exact loopGo_error_first fuel hb2 hl
        | ok st4 =>
          have hb4 := loopGo_ok_noErr fuel hb2 hl
          dsimp only at h
          cases hf : doOp env st4 <;> rw [hf] at h
          · dsimp only at h
            injection h with h1
            injection h1 with h2
            subst h2
            exact doOp_error_first hb4 hf
          · exact absurd h (by simp)

theorem targetSizeBytes_eq (sg : Nat) :
    targetSizeBytes sg = (sg % 2 ^ 34) * (1024 * 1024 * 1024) := by
  unfold targetSizeBytes
  have h1 : sg * 1024 * 1024 * 1024 = sg * (1024 * 1024 * 1024) := by ring
  have h2 : (2 : Nat) ^ 64 = 2 ^ 34 * (1024 * 1024 * 1024) := by norm_num
  rw [h1, h2, Nat.mul_mod_mul_right]

theorem targetSizeBytes_pos_ge {sg : Nat} (h : 0 < targetSizeBytes sg) :
    2 ^ 30 ≤ targetSizeBytes sg := by
  rw [targetSizeBytes_eq] at h ⊢
  rcases Nat.eq_zero_or_pos (sg % 2 ^ 34) with h0 | h0
  · rw [h0] at h; simp at h
  · calc (2 : Nat) ^ 30 = 1 * (1024 * 1024 * 1024) := by norm_num
      _ ≤ (sg % 2 ^ 34) * (1024 * 1024 * 1024) := Nat.mul_le_mul_right _ h0

theorem targetSizeBytes_eq_of_lt {sg : Nat} (h : sg < 2 ^ 34) :
    targetSizeBytes sg = sg * (1024 * 1024 * 1024) := by
  have e : sg * 1024 * 1024 * 1024 = sg * (1024 * 1024 * 1024) := by ring
  unfold targetSizeBytes
  rw [e]
  apply Nat.mod_eq_of_lt
  calc sg * (1024 * 1024 * 1024) < 2 ^ 34 * (1024 * 1024 * 1024) :=
        mul_lt_mul_of_pos_right h (by norm_num)
    _ = 2 ^ 64 := by norm_num

theorem goodRows_len3 {t : List (List (List Nat))} (h : goodRows t = true) :
    (t.all fun rec0 => rec0.length == 3) = true := by
  simp only [goodRows] at h
  rw [List.all_eq_true] at h ⊢
  intro x hx
  have h2 := h x hx
  simp only [Bool.and_eq_true] at h2
  exact h2.1

theorem row_age_core (v : Nat) :
    18 ≤ decodeAge (ageBytes (18 + v % 43)) ∧
    decodeAge (ageBytes (18 + v % 43)) ≤ 60 ∧
    ageBytes (decodeAge (ageBytes (18 + v % 43))) = ageBytes (18 + v % 43) := by
  have hm : v % 43 < 43 := Nat.mod_lt _ (by norm_num)
  have hd : decodeAge (ageBytes (18 + v % 43)) = 18 + v % 43 := by
    show ((18 + v % 43) / 10 + 48 - 48) * 10 + ((18 + v % 43) % 10 + 48 - 48) =
      18 + v % 43
    omega
  rw [hd]
  exact ⟨by omega, by omega, rfl⟩

/-! The claims. -/

/-- C1: the generation loop stops adding batches only once the queried
file size has reached or passed the target; for size_gb below 2 ^ 34 the
target is exactly size_gb * 1024 ^ 3 bytes, and every successful run of
generate_large_csv ends with the flushed file size at or above it. -/
theorem generate_stops_at_target (env : Env) (fuel sg : Nat)
    (names : List (List Nat)) (s : Nat → Nat) (h : sg < 2 ^ 34) :
    targetSizeBytes sg = sg * (1024 * 1024 * 1024) ∧
    OnOk (generate env fuel sg names s) fun st =>
      sg * (1024 * 1024 * 1024) ≤ st.diskLen := by
  refine ⟨targetSizeBytes_eq_of_lt h, ?_⟩
  cases hg : generate env fuel sg names s
  · exact trivial
  · rename_i res
    cases res with
    | error p => exact trivial
    | ok stf =>
      obtain ⟨st3, st4, -, -, -, -, -, hl, ed, -, -, -⟩ := generate_ok_loop hg
      have hexit := @loopGo_exit env names (targetSizeBytes sg) fuel st3
      rw [hl] at hexit
      have h2 : targetSizeBytes sg ≤ st4.diskLen := hexit
      show sg * (1024 * 1024 * 1024) ≤ stf.diskLen
      rw [← targetSizeBytes_eq_of_lt h, ed]
      exact h2

/-- C1 witness: instantiated at size 0 with a fuel-1 run that terminates
immediately. -/
theorem generate_stops_at_target_witness :
    (0 : Nat) < 2 ^ 34 ∧
    (targetSizeBytes 0 = 0 * (1024 * 1024 * 1024) ∧
     OnOk (generate allOk 1 0 mainNames (fun _ => 0)) fun st =>
       0 * (1024 * 1024 * 1024) ≤ st.diskLen) :=
  ⟨by decide,
   generate_stops_at_target allOk 1 0 mainNames (fun _ => 0) (by decide)⟩

/-- C2 counterexample: with requested size 0 the very first size check
already passes (0 < 0 is false), so the loop exits before writing any
batch: the concrete run succeeds with row count 0, refuting the claim
that at least one batch of 10000 rows is written for every target
including 0. -/
theorem zero_target_writes_no_batch :
    resRowCount (generate allOk 1 0 mainNames (fun _ => 0)) = some 0 ∧
    ¬ OnOk (generate allOk 1 0 mainNames (fun _ => 0)) fun st =>
        10000 ≤ st.rowCount := by
  refine ⟨rfl, fun hcl => ?_⟩
  have h0 : (10000 : Nat) ≤ 0 := hcl
  omega

/-- C2 amended: for every positive target (any nonzero computed target is
at least 2 ^ 30 bytes) a successful run has written at least one full
batch of 10000 data rows before the loop could exit; with target 0 the
loop exits before the first batch. -/
theorem positive_target_writes_min_batch (env : Env) (fuel sg : Nat)
    (names : List (List Nat)) (s : Nat → Nat)
    (h : 0 < targetSizeBytes sg) :
    OnOk (generate env fuel sg names s) fun st => 10000 ≤ st.rowCount := by
  cases hg : generate env fuel sg names s
  · exact trivial
  · rename_i res
    cases res with
    | error p => exact trivial
    | ok stf =>
      obtain ⟨st3, st4, hd0, -, hc0, -, -, hl, -, ec, -, -⟩ :=
        generate_ok_loop hg
      have hrows := @loopGo_rows env names (targetSizeBytes sg) fuel st3
      rw [hl] at hrows
      have h2 : st3.rowCount ≤ st4.rowCount ∧
          (st3.diskLen < targetSizeBytes sg →
            st3.rowCount + 10000 ≤ st4.rowCount) := hrows
      obtain ⟨-, h3⟩ := h2
      have h4 := h3 (by omega)
      show 10000 ≤ stf.rowCount
      omega

/-- C2 amended witness: instantiated at size 1 (target 2 ^ 30) with zero
fuel, where the run is still pending. -/
theorem positive_target_writes_min_batch_witness :
    0 < targetSizeBytes 1 ∧
    OnOk (generate allOk 0 1 mainNames (fun _ => 0)) fun st =>
      10000 ≤ st.rowCount :=
  ⟨by decide,
   positive_target_writes_min_batch allOk 0 1 mainNames (fun _ => 0)
     (by decide)⟩

/-- C3: for a positive target, a successful run ends with final size at
least the target and overshoot strictly below the bytes the last batch of
10000 serialized rows contributed. -/
theorem generate_overshoot_bound (env : Env) (fuel sg : Nat)
    (names : List (List Nat)) (s : Nat → Nat)
    (h : 0 < targetSizeBytes sg) :
    OnOk (generate env fuel sg names s) fun st =>
      targetSizeBytes sg ≤ st.diskLen ∧
      st.diskLen - targetSizeBytes sg < st.lastBatch := by
  have h30 := targetSizeBytes_pos_ge h
  have h30n : (2 : Nat) ^ 30 = 1073741824 := by norm_num
  have ht : 12 < targetSizeBytes sg := by omega
  cases hg : generate env fuel sg names s
  · exact trivial
  · rename_i res
    cases res with
    | error p => exact trivial
    | ok stf =>
      obtain ⟨st3, st4, hd0, hb12, -, hl0, -, hl, ed, -, el, -⟩ :=
        generate_ok_loop hg
      have hov := @loopGo_overshoot env names (targetSizeBytes sg) ht fuel st3
        (Or.inr ⟨hb12, hd0⟩) (by omega)
      rw [hl] at hov
      have h2 : targetSizeBytes sg ≤ st4.diskLen ∧
          st4.diskLen - targetSizeBytes sg < st4.lastBatch := hov
      obtain ⟨h2a, h2b⟩ := h2
      show targetSizeBytes sg ≤ stf.diskLen ∧
        stf.diskLen - targetSizeBytes sg < stf.lastBatch
      omega

/-- C3 witness: instantiated at size 1 (target 2 ^ 30) with zero fuel,
where the run is still pending. -/
theorem generate_overshoot_bound_witness :
    0 < targetSizeBytes 1 ∧
    OnOk (generate allOk 0 1 mainNames (fun _ => 0)) fun st =>
      targetSizeBytes 1 ≤ st.diskLen ∧
      st.diskLen - targetSizeBytes 1 < st.lastBatch :=
  ⟨by decide,
   generate_overshoot_bound allOk 0 1 mainNames (fun _ => 0) (by decide)⟩

/-- C4: on the first failing operation the run aborts immediately with no
retry: a reported error is exactly the oracle's failure at the current
operation index and every earlier operation succeeded; main then prints a
single diagnostic line on stderr, finishes with exit code 0, and keeps
the file state exactly as the aborted run left it (no cleanup, no
deletion). -/
theorem first_error_aborts_and_reports (env : Env) (fuel : Nat)
    (s : Nat → Nat) :
    (∀ (sg : Nat) (names : List (List Nat)),
      OnErr (generate env fuel sg names s) fun st e =>
        env st.opIdx = some e ∧
        ((List.range st.opIdx).all fun j => (env j).isNone) = true) ∧
    (OnErr (generate env fuel 10 mainNames s) fun st e =>
      mainModel env fuel s = some ⟨["An error occurred: " ++ e], 0, st⟩) := by
  constructor
  · intro sg names
    cases hg : generate env fuel sg names s
    · exact trivial
    · rename_i res
      cases res with
      | ok st => exact trivial
      | error p =>
        obtain ⟨st, e⟩ := p
        exact generate_error_first hg
  · cases hg : generate env fuel 10 mainNames s
    · exact trivial
    · rename_i res
      cases res with
      | ok st => exact trivial
      | error p =>
        obtain ⟨st, e⟩ := p
        show mainModel env fuel s = some ⟨["An error occurred: " ++ e], 0, st⟩
        unfold mainModel
        rw [hg]

/-- C5: every generated row's id field is the lowercase hex encoding of
the SHA-256 digest of 32 freshly drawn random bytes; it is exactly 64
bytes long and each byte is in the class [0-9a-f]; row generation never
fails. -/
theorem row_id_hex64 (names : List (List Nat)) (r : Rng) :
    RowOk (genRow names r) fun row =>
      row.headD [] = hexEncodeBytes (sha256 (rngBytes32 r).1) ∧
      (row.headD []).length = 64 ∧
      (row.headD []).all isHexLowerByte = true := by
  rw [genRow_eq]
  refine ⟨rfl, ?_, ?_⟩
  · show (hexEncodeBytes (sha256 (rngBytes32 r).1)).length = 64
    rw [hexEncodeBytes_length, sha256_length]
  · show (hexEncodeBytes (sha256 (rngBytes32 r).1)).all isHexLowerByte = true
    exact hexEncodeBytes_hex (sha256_bytes_lt _)

/-- C6: every generated row's age field renders an integer between 18 and
60 inclusive, and re-rendering the decoded numeric value reproduces the
field exactly (the two-digit base-10 string round-trips). -/
theorem row_age_in_range (names : List (List Nat)) (r : Rng) :
    RowOk (genRow names r) fun row =>
      18 ≤ decodeAge (row.getD 2 []) ∧ decodeAge (row.getD 2 []) ≤ 60 ∧
      ageBytes (decodeAge (row.getD 2 [])) = row.getD 2 [] := by
  rw [genRow_eq]
  exact row_age_core _

/-- C7: every generated row's name field is drawn from the configured
name table; when the table is empty the field is the empty string and row
generation still does not fail. -/
theorem row_name_from_table (names : List (List Nat)) (r : Rng) :
    RowOk (genRow names r) fun row =>
      if names.isEmpty then row.getD 1 [] = [] else row.getD 1 [] ∈ names := by
  rw [genRow_eq]
  show if names.isEmpty then (rowOf names r).getD 1 [] = []
       else (rowOf names r).getD 1 [] ∈ names
  by_cases he : names.isEmpty = true
  · rw [if_pos he]
    show (chooseName names (rngBytes32 r).2).1 = []
    unfold chooseName
    rw [if_pos he]
  · rw [if_neg he]
    show (chooseName names (rngBytes32 r).2).1 ∈ names
    unfold chooseName
    rw [if_neg he]
    dsimp only
    have hlen : 0 < names.length := by
      cases names with
      | nil => exact absurd rfl he
      | cons a t => simp
    have hidx : (rngIndex names.length (rngBytes32 r).2).1 < names.length := by
      unfold rngIndex rngNext
      dsimp only
      exact Nat.mod_lt _ hlen
    rw [List.getD_eq_getElem names [] hidx]
    exact List.getElem_mem hidx

/-- C8: every successful run's output starts with the header record
id,name,age written exactly once before any data row, and every record
has exactly 3 fields in the order id, name, age (data rows additionally
carry the 64-byte id first). -/
theorem output_header_and_fields (env : Env) (fuel sg : Nat)
    (names : List (List Nat)) (s : Nat → Nat) :
    OnOk (generate env fuel sg names s) fun st =>
      st.written.head? = some headerRecord ∧
      (st.written.all fun rec0 => rec0.length == 3) = true ∧
      goodRows st.written.tail = true := by
  cases hg : generate env fuel sg names s
  · exact trivial
  · rename_i res
    cases res with
    | error p => exact trivial
    | ok stf =>
      obtain ⟨st3, st4, -, -, -, -, hw3, hl, -, -, -, ew⟩ :=
        generate_ok_loop hg
      have hwr := @loopGo_written env names (targetSizeBytes sg) fuel st3
        (by rw [hw3]; rfl) (by rw [hw3]; rfl)
      rw [hl] at hwr
      have h2 : st4.written.head? = some headerRecord ∧
          goodRows st4.written.tail = true := hwr
      obtain ⟨h2a, h2b⟩ := h2
      show stf.written.head? = some headerRecord ∧
        (stf.written.all fun rec0 => rec0.length == 3) = true ∧
        goodRows stf.written.tail = true
      rw [ew]
      refine ⟨h2a, ?_, h2b⟩
      cases hwl : st4.written with
      | nil => rw [hwl] at h2a; exact absurd h2a (by simp)
      | cons a t =>
        rw [hwl] at h2a h2b
        simp only [List.head?_cons, Option.some.injEq] at h2a
        subst h2a
        simp only [List.tail_cons] at h2b
        have h3 := goodRows_len3 h2b
        rw [List.all_cons, h3]
        decide

/-- C9: generation is deterministic in the random source: with the same
oracle, fuel, size, and name table, two entropy streams that agree
pointwise produce identical runs, hence byte-identical output. -/
theorem generate_deterministic_in_seed (env : Env) (fuel sg : Nat)
    (names : List (List Nat)) (s1 s2 : Nat → Nat)
    (h : ∀ i, s1 i = s2 i) :
    generate env fuel sg names s1 = generate env fuel sg names s2 := by
  have he : s1 = s2 := funext h
  rw [he]

/-- C9 witness: instantiated with the constant-zero stream on both sides
of a terminating size-0 run. -/
theorem generate_deterministic_in_seed_witness :
    (∀ i : Nat, (fun _ : Nat => 0) i = (fun _ : Nat => 0) i) ∧
    generate allOk 1 0 mainNames (fun _ => 0) =
      generate allOk 1 0 mainNames (fun _ => 0) :=
  ⟨fun _ => rfl,
   generate_deterministic_in_seed allOk 1 0 mainNames (fun _ => 0)
     (fun _ => 0) (fun _ => rfl)⟩

/-- C10: the u64 computation size_gb * 1024 * 1024 * 1024 equals the
mathematical size_gb * 1024 ^ 3 exactly when size_gb < 2 ^ 34; for every
larger size_gb the multiplication wraps modulo 2 ^ 64 and the computed
target differs from the mathematical product. -/
theorem target_size_exact_iff_no_overflow (sg : Nat) :
    targetSizeBytes sg = sg * (1024 * 1024 * 1024) ↔ sg < 2 ^ 34 := by
  constructor
  · intro he
    by_contra hc
    push_neg at hc
    have h1 : targetSizeBytes sg < 2 ^ 64 := by
      unfold targetSizeBytes
      exact Nat.mod_lt _ (by norm_num)
    have h2 : (2 : Nat) ^ 64 ≤ sg * (1024 * 1024 * 1024) := by
      calc (2 : Nat) ^ 64 = 2 ^ 34 * (1024 * 1024 * 1024) := by norm_num
        _ ≤ sg * (1024 * 1024 * 1024) := Nat.mul_le_mul_right _ hc
    omega
  · exact targetSizeBytes_eq_of_lt
